import Mathlib

/-!
Verification development for the SEO auditor repository.

The embedding covers:
* `seo_auditor/crawler.py` — `fetch_sitemap_urls` (recursive sitemap resolution);
* `seo_auditor/analyzer.py` — `analyze_page` and its link / issue logic;
* `seo_auditor/utils.py` — `get_schema_types` (JSON-LD type walk);
* `main.py` — the standalone revision of `analyze_page` and the
  `duplicate_title` post-pass of `audit_site`;
* `seo_auditor/ui.py` — the page-limit truncation of `run_audit_ui`.

Network and file-system effects are abstracted by "world" functions supplied as
parameters: an HTTP fetch of a sitemap URL is a function from URL to parsed
result, page fetches are a `PageFetch` value, URL resolution (`urljoin`,
`urlparse(...).netloc`, fragment stripping) are abstract string functions, and
the HEAD-request brokenness test is a boolean oracle.  Python's bounded
recursion (`RecursionError` is swallowed by the bare `except` of the frame
whose recursive call overflowed) is modelled by an explicit fuel argument.
-/

/-- One sitemap document as seen by `fetch_sitemap_urls` after the XML parse:
the `<loc>` texts of its `<sitemap>` nodes and of its `<url>` nodes, in
document order.  `crawler.py` iterates `soup.find_all("sitemap")` first and
`soup.find_all("url")` second. -/
structure SitemapDoc where
  sitemaps : List String
  urls : List String
deriving DecidableEq, Repr

mutual

/-- Embedding of `fetch_sitemap_urls(sitemap_url, collected)` from
`seo_auditor/crawler.py` lines 19–47.  `world url = none` models a non-200
response, a GET exception or an XML parse failure (all of which return
`collected` unchanged); `some doc` models a successful fetch and parse.

The first component of the result is the `collected` set; the second is the
trace of sitemap URLs the call issued a GET for.  `fuel` is the remaining
Python recursion depth: the source has no visited set, so on a cyclic sitemap
the recursion only stops when the interpreter's recursion limit is reached, at
which point the failing recursive call raises `RecursionError`, the bare
`except Exception` of the current frame swallows it and that frame returns
`collected` — skipping its remaining `<sitemap>` children and its whole
`<url>` loop.  That is the `_ :: _, 0` branch below. -/
def fetchSitemap (world : String → Option SitemapDoc) (fuel : Nat) (url : String)
    (collected : Finset String) : Finset String × List String :=
  match world url with
  | none => (collected, [url])
  | some doc =>
    match doc.sitemaps, fuel with
    | [], _ => (collected ∪ doc.urls.toFinset, [url])
    | _ :: _, 0 => (collected, [url])
    | c :: cs, Nat.succ n =>
      let r := fetchChildren world n (c :: cs) collected
      (r.1 ∪ doc.urls.toFinset, url :: r.2)
termination_by (fuel, 0)

/-- The loop `for sitemap in soup.find_all("sitemap"): ... fetch_sitemap_urls(loc, collected)`
of `crawler.py`, threading the shared `collected` set through the children in
document order and concatenating the fetch traces. -/
def fetchChildren (world : String → Option SitemapDoc) (fuel : Nat)
    (l : List String) (collected : Finset String) : Finset String × List String :=
  match l with
  | [] => (collected, [])
  | c :: cs =>
    let r := fetchSitemap world fuel c collected
    let r2 := fetchChildren world fuel cs r.1
    (r2.1, r.2 ++ r2.2)
termination_by (fuel, l.length + 1)

end

/-- Unfolding: a failed fetch (non-200, GET exception or parse failure) leaves
`collected` unchanged; the URL was still requested. -/
theorem fetchSitemap_none {world : String → Option SitemapDoc} {url : String}
    (h : world url = none) (fuel : Nat) (c : Finset String) :
    fetchSitemap world fuel url c = (c, [url]) := by
  simp only [fetchSitemap.eq_def, h]

/-- Unfolding: a sitemap with no `<sitemap>` children contributes its `<url>`
locs, at any fuel. -/
theorem fetchSitemap_leaf {world : String → Option SitemapDoc} {url : String}
    {doc : SitemapDoc} (h : world url = some doc) (hs : doc.sitemaps = [])
    (fuel : Nat) (c : Finset String) :
    fetchSitemap world fuel url c = (c ∪ doc.urls.toFinset, [url]) := by
  simp only [fetchSitemap.eq_def, h, hs]

/-- Unfolding: at exhausted recursion depth a sitemap index returns `collected`
as is — the recursive call raised `RecursionError`, the bare `except` caught
it, and the frame's own `<url>` loop never ran. -/
theorem fetchSitemap_stuck {world : String → Option SitemapDoc} {url : String}
    {doc : SitemapDoc} {x : String} {xs : List String}
    (h : world url = some doc) (hs : doc.sitemaps = x :: xs) (c : Finset String) :
    fetchSitemap world 0 url c = (c, [url]) := by
  simp only [fetchSitemap.eq_def, h, hs]

/-- Unfolding: a sitemap index recurses into every child with one less fuel,
then adds its own `<url>` locs. -/
theorem fetchSitemap_rec {world : String → Option SitemapDoc} {url : String}
    {doc : SitemapDoc} {x : String} {xs : List String}
    (h : world url = some doc) (hs : doc.sitemaps = x :: xs)
    (n : Nat) (c : Finset String) :
    fetchSitemap world (n + 1) url c =
      ((fetchChildren world n (x :: xs) c).1 ∪ doc.urls.toFinset,
        url :: (fetchChildren world n (x :: xs) c).2) := by
  simp only [fetchSitemap.eq_def, h, hs]

/-- Unfolding for the empty child list. -/
theorem fetchChildren_nil (world : String → Option SitemapDoc) (fuel : Nat)
    (c : Finset String) : fetchChildren world fuel [] c = (c, []) := by
  simp only [fetchChildren.eq_def]

/-- Unfolding for a non-empty child list: the shared `collected` set threads
left to right through the children. -/
theorem fetchChildren_cons (world : String → Option SitemapDoc) (fuel : Nat)
    (x : String) (xs : List String) (c : Finset String) :
    fetchChildren world fuel (x :: xs) c =
      ((fetchChildren world fuel xs (fetchSitemap world fuel x c).1).1,
        (fetchSitemap world fuel x c).2 ++
          (fetchChildren world fuel xs (fetchSitemap world fuel x c).1).2) := by
  conv_lhs => rw [fetchChildren.eq_def]

/-- The `collected` accumulator only grows, at every fuel, both for a single
sitemap fetch and for a child list: helper for claims C1 and C10. -/
theorem fetchSitemap_superset_pair (world : String → Option SitemapDoc) :
    ∀ fuel : Nat,
      (∀ (url : String) (c : Finset String), c ⊆ (fetchSitemap world fuel url c).1) ∧
      (∀ (l : List String) (c : Finset String), c ⊆ (fetchChildren world fuel l c).1) := by
  have hchild : ∀ (fuel : Nat),
      (∀ (url : String) (c : Finset String), c ⊆ (fetchSitemap world fuel url c).1) →
      ∀ (l : List String) (c : Finset String), c ⊆ (fetchChildren world fuel l c).1 := by
    intro fuel hs l
    induction l with
    | nil => intro c; rw [fetchChildren_nil]
    | cons x xs ihl =>
      intro c
      rw [fetchChildren_cons]
      exact (hs x c).trans (ihl _)
  intro fuel
  induction fuel with
  | zero =>
    have hs : ∀ (url : String) (c : Finset String),
        c ⊆ (fetchSitemap world 0 url c).1 := by
      intro url c
      cases h : world url with
      | none => rw [fetchSitemap_none h]
      | some doc =>
        cases hs0 : doc.sitemaps with
        | nil => rw [fetchSitemap_leaf h hs0]; exact Finset.subset_union_left
        | cons x xs => rw [fetchSitemap_stuck h hs0]
    exact ⟨hs, hchild 0 hs⟩
  | succ n ih =>
    have hs : ∀ (url : String) (c : Finset String),
        c ⊆ (fetchSitemap world (n + 1) url c).1 := by
      intro url c
      cases h : world url with
      | none => rw [fetchSitemap_none h]
      | some doc =>
        cases hs0 : doc.sitemaps with
        | nil => rw [fetchSitemap_leaf h hs0]; exact Finset.subset_union_left
        | cons x xs =>
          rw [fetchSitemap_rec h hs0]
          exact (hchild n ih.1 (x :: xs) c).trans Finset.subset_union_left
    exact ⟨hs, hchild (n + 1) hs⟩

/-- Scenario D world: `index` is a sitemap index referencing `child-a` and
`child-b`; `child-a` references itself and carries page `page-a`; `child-b`
carries page `page-b`. -/
def scenarioDWorld : String → Option SitemapDoc := fun u =>
  if u = "index" then some ⟨["child-a", "child-b"], []⟩
  else if u = "child-a" then some ⟨["child-a"], ["page-a"]⟩
  else if u = "child-b" then some ⟨[], ["page-b"]⟩
  else none

theorem scenarioDWorld_childA : scenarioDWorld "child-a" = some ⟨["child-a"], ["page-a"]⟩ := by
  decide

theorem scenarioDWorld_childB : scenarioDWorld "child-b" = some ⟨[], ["page-b"]⟩ := by
  decide

theorem scenarioDWorld_index : scenarioDWorld "index" = some ⟨["child-a", "child-b"], []⟩ := by
  decide

/-- Resolving the self-referencing `child-a` collects `page-a` (and keeps the
accumulator) at every positive fuel. -/
theorem scenarioD_childA (m : Nat) :
    ∀ acc : Finset String,
      (fetchSitemap scenarioDWorld (m + 1) "child-a" acc).1 = acc ∪ {"page-a"} := by
  induction m with
  | zero =>
    intro acc
    rw [fetchSitemap_rec scenarioDWorld_childA rfl, fetchChildren_cons,
      fetchSitemap_stuck scenarioDWorld_childA rfl, fetchChildren_nil]
    simp
  | succ k ih =>
    intro acc
    rw [fetchSitemap_rec scenarioDWorld_childA rfl, fetchChildren_cons,
      fetchChildren_nil, ih acc]
    simp [Finset.union_assoc]

/-- Full evaluation of the self-referencing `child-a` branch: at fuel `m` the
URL set gains `page-a` unless the fuel is already exhausted, and `child-a`
itself is requested `m + 1` times — once per remaining recursion level. -/
theorem scenarioD_childA_eval (m : Nat) :
    ∀ acc : Finset String,
      fetchSitemap scenarioDWorld m "child-a" acc =
        (acc ∪ (if m = 0 then ∅ else {"page-a"}), List.replicate (m + 1) "child-a") := by
  induction m with
  | zero =>
    intro acc
    rw [fetchSitemap_stuck scenarioDWorld_childA rfl]
    simp
  | succ k ih =>
    intro acc
    rw [fetchSitemap_rec scenarioDWorld_childA rfl, fetchChildren_cons,
      fetchChildren_nil, ih acc]
    rcases Nat.eq_zero_or_pos k with hk | hk
    · subst hk; simp [List.replicate_succ]
    · have hk0 : ¬ k = 0 := by omega
      simp [hk0, List.replicate_succ, Finset.union_assoc]

/-- Full evaluation of Scenario D from the `index` sitemap: the result set is
exactly the union of the pages of `child-a` and `child-b`, while the cyclic
`child-a` is fetched once per remaining recursion level. -/
theorem scenarioD_index_eval (n : Nat) :
    fetchSitemap scenarioDWorld (n + 1 + 1) "index" ∅ =
      ({"page-a", "page-b"},
        "index" :: (List.replicate (n + 1 + 1) "child-a" ++ ["child-b"])) := by
  rw [fetchSitemap_rec scenarioDWorld_index rfl, fetchChildren_cons,
    fetchChildren_cons, fetchChildren_nil, scenarioD_childA_eval (n + 1) ∅]
  simp only [Nat.succ_ne_zero, if_neg, Finset.empty_union]
  rw [fetchSitemap_leaf scenarioDWorld_childB rfl]
  refine Prod.ext ?_ ?_
  · show ({"page-a"} ∪ ["page-b"].toFinset) ∪ ([] : List String).toFinset =
      ({"page-a", "page-b"} : Finset String)
    decide
  · simp

/-- Claim C1, counterexample: `fetch_sitemap_urls` has no visited set, so in
Scenario D (a sitemap index whose child `child-a` references itself) the
sitemap URL `child-a` is requested five times during one resolution at
recursion budget 5 — refuting "never fetches the same sitemap URL more than
once (a URL already visited is skipped, not re-fetched)". -/
theorem sitemap_cycle_refetches :
    2 ≤ (fetchSitemap scenarioDWorld 5 "index" ∅).2.count "child-a" := by
  have h := scenarioD_index_eval 3
  norm_num at h
  rw [h]
  decide

/-- Claim C1 (amended): on the cyclic Scenario D graph, sitemap resolution
still terminates (the Python recursion limit, modelled as fuel, cuts the
cycle) and returns the union of the page URLs of the reachable sitemaps with
each URL present exactly once — but the cyclic sitemap is re-fetched at every
recursion level rather than being skipped. -/
theorem sitemap_cycle_resolves_union (fuel : Nat) (h : 2 ≤ fuel) :
    (fetchSitemap scenarioDWorld fuel "index" ∅).1 = {"page-a", "page-b"} := by
  obtain ⟨k, rfl⟩ : ∃ k, fuel = k + 1 + 1 := ⟨fuel - 2, by omega⟩
  rw [scenarioD_index_eval k]

/-- Claim C1, witness at fuel 5. -/
theorem sitemap_cycle_resolves_union_witness :
    (fetchSitemap scenarioDWorld 5 "index" ∅).1 = {"page-a", "page-b"} :=
  sitemap_cycle_resolves_union 5 (by decide)

/-- Claim C10: for every sitemap URL and every initial `collected` accumulator
(and any world and recursion budget), the set returned by `fetch_sitemap_urls`
is a superset of the passed-in set — resolution only ever adds URLs, also when
the fetch fails or the XML is malformed (`world url = none`). -/
theorem fetch_sitemap_superset (world : String → Option SitemapDoc)
    (fuel : Nat) (url : String) (collected : Finset String) :
    collected ⊆ (fetchSitemap world fuel url collected).1 :=
  (fetchSitemap_superset_pair world fuel).1 url collected

/-- Page-limit truncation of `run_audit_ui` (`seo_auditor/ui.py` lines 50–51):
`urls_to_scan` is the enumeration of the discovered URL set in whatever order
Python's set iteration yields (`list(found_sitemap)` — no sorting), and a
positive `max_pages` keeps its first `max_pages` entries. -/
def uiTruncate (urlsToScan : List String) (maxPages : Int) : List String :=
  if 0 < maxPages then urlsToScan.take maxPages.toNat else urlsToScan

/-- The audit loop of `run_audit_ui` (`seo_auditor/ui.py` lines 53–57): one
`analyze_page` record per URL kept after truncation.  The per-URL analysis is
abstracted here; only the record count matters for claim C4. -/
def runAuditRecordCount (discovered : List String) (maxPages : Int) : Nat :=
  (uiTruncate discovered maxPages).length

/-- Lexicographic comparison of character lists by code point, the order
Python's `sorted` uses on strings.  Written on `List Char` so that it is
kernel-computable. -/
def charLexLe : List Char → List Char → Bool
  | [], _ => true
  | _ :: _, [] => false
  | a :: as, b :: bs => if a < b then true else if a = b then charLexLe as bs else false

/-- Lexicographic order on strings by code point (the order of Python's
`sorted`), as a proposition for use with `List.insertionSort`. -/
def strLexLe (x y : String) : Prop := charLexLe x.data y.data = true

instance : DecidableRel strLexLe := fun x y => by
  unfold strLexLe
  infer_instance

/-- Claim C4, counterexample: the kept subset is the first elements of the
set's arbitrary iteration order, not the sorted order — with the discovered
set enumerated as `["b", "a"]` (a legitimate Python set order) and page limit
1, the scanned subset is `{"b"}` while sorted-order truncation would keep
`{"a"}`. -/
theorem ui_truncation_not_sorted :
    (uiTruncate ["b", "a"] 1).toFinset ≠
      ((List.insertionSort strLexLe ["b", "a"]).take (1 : Int).toNat).toFinset := by
  decide

/-- Claim C4 (amended): for every run with a positive `page_limit`, the number
of PageRecords produced equals `min(number of discovered URLs, page_limit)`;
but the kept subset is the prefix of the discovered set's arbitrary iteration
order, not a sorted-order selection. -/
theorem ui_record_count_min (discovered : List String) (m : Int) (h : 0 < m) :
    runAuditRecordCount discovered m = min discovered.length m.toNat := by
  simp [runAuditRecordCount, uiTruncate, h, List.length_take, Nat.min_comm]

/-- Claim C4, witness: three discovered URLs and page limit 2 give 2 records. -/
theorem ui_record_count_min_witness :
    runAuditRecordCount ["a", "b", "c"] 2 = min 3 (2 : Int).toNat :=
  ui_record_count_min ["a", "b", "c"] 2 (by decide)

/-- The `duplicate_title` post-pass of `audit_site` (`main.py` line 392):
`df.duplicated(subset=["title"], keep=False) & (df["title"] != "")` — a
record's flag is true iff its exact title string occurs in at least two rows
of the completed crawl and is non-empty.  `titles` is the title column. -/
def duplicateTitleFlag (titles : List String) (t : String) : Bool :=
  decide (2 ≤ titles.count t) && (t != "")

/-- Claim C3, counterexample: with crawl titles `["Home", "HOME"]`, the
case-normalized title "home" occurs in two records, yet the record titled
"Home" is not flagged — the code compares exact strings, not case-normalized
ones, so the claimed iff fails. -/
theorem duplicate_title_case_counterexample :
    ¬ (duplicateTitleFlag ["Home", "HOME"] "Home" = true ↔
        ("Home" ≠ "" ∧
          2 ≤ (["Home", "HOME"].countP
            (fun x => x.data.map Char.toLower == "Home".data.map Char.toLower)))) := by
  decide

/-- Claim C3 (amended): after a completed crawl, a record's duplicate-title
flag is true iff its title is non-empty and that exact title (case-sensitive,
no normalization) occurs in at least 2 records of the completed set. -/
theorem duplicate_title_exact_iff (titles : List String) (t : String) :
    duplicateTitleFlag titles t = true ↔ (t ≠ "" ∧ 2 ≤ titles.count t) := by
  simp [duplicateTitleFlag, and_comm]

mutual

/-- A parsed JSON value, as produced by `json.loads` in
`seo_auditor/utils.py`.  Arrays and objects carry their own list spines so
that mutual structural recursion and induction are available. -/
inductive Json where
  | null : Json
  | bool (b : Bool) : Json
  | num (n : Int) : Json
  | str (s : String) : Json
  | arr (a : JsonArr) : Json
  | obj (o : JsonObj) : Json

/-- Spine of a JSON array. -/
inductive JsonArr where
  | nil : JsonArr
  | cons (hd : Json) (tl : JsonArr) : JsonArr

/-- Spine of a JSON object: key/value pairs in document order. -/
inductive JsonObj where
  | nil : JsonObj
  | cons (key : String) (val : Json) (tl : JsonObj) : JsonObj

end

/-- Python dict lookup `data[key]` (`"@type" in data` guards it); first
matching key wins. -/
def objLookup : JsonObj → String → Option Json
  | .nil, _ => none
  | .cons k v t, key => if k = key then some v else objLookup t key


/-- Model of Python `set.add` for the internal-link target set: each element
stored once; the model keeps first-insertion order in a duplicate-free list
(the iteration order of a real Python set is arbitrary, and no theorem below
depends on the order of this list). -/
def addToSet (s : List String) (x : String) : List String :=
  if x ∈ s then s else s ++ [x]

/-- An element of the shared `types_found` set.  Python's `set` can hold any
hashable value, and `extract_recursive` adds whatever `data["@type"]` holds:
strings, but also numbers, booleans or `None` (all hashable).  Unhashable
values (dicts, lists) never enter the set — `set.add`/`set.update` raise
`TypeError` first. -/
inductive SetElem where
  | str (s : String) : SetElem
  | num (n : Int) : SetElem
  | bool (b : Bool) : SetElem
  | null : SetElem
deriving DecidableEq, Repr

/-- Python `set.add` on `types_found`: each element stored once; the model
keeps first-insertion order in a duplicate-free list (the iteration order of
a real Python set is arbitrary, and no theorem below depends on the order of
this list). -/
def addElem (s : List SetElem) (x : SetElem) : List SetElem :=
  if x ∈ s then s else s ++ [x]

/-- Membership after a `set.add`. -/
theorem mem_addElem {s : List SetElem} {x y : SetElem} :
    y ∈ addElem s x ↔ y ∈ s ∨ y = x := by
  by_cases h : x ∈ s
  · simp only [addElem, if_pos h]
    constructor
    · exact Or.inl
    · rintro (h2 | rfl)
      · exact h2
      · exact h
  · simp [addElem, if_neg h]

/-- `types_found.update(t)` for a list-valued `@type`
(`seo_auditor/utils.py` line 21): add the elements one at a time, in list
order.  A hashable element (string, number, boolean, `None`) is added; an
unhashable element (a nested list or dict) makes `set.update` raise
`TypeError` at that point — the elements before it stay added and the flag
records the raise. -/
def updateElems : JsonArr → List SetElem → List SetElem × Bool
  | .nil, acc => (acc, false)
  | .cons (.str s) t, acc => updateElems t (addElem acc (.str s))
  | .cons (.num n) t, acc => updateElems t (addElem acc (.num n))
  | .cons (.bool b) t, acc => updateElems t (addElem acc (.bool b))
  | .cons .null t, acc => updateElems t (addElem acc .null)
  | .cons (.arr _) _, acc => (acc, true)
  | .cons (.obj _) _, acc => (acc, true)

/-- The contribution of one `data["@type"]` value to the shared set
(`utils.py` lines 19–23): a list goes through `set.update`, any other value
through `set.add` — which adds hashable scalars of any type and raises
`TypeError` on a dict.  The flag records a raise. -/
def typeValAdd : Option Json → List SetElem → List SetElem × Bool
  | none, acc => (acc, false)
  | some (.str s), acc => (addElem acc (.str s), false)
  | some (.num n), acc => (addElem acc (.num n), false)
  | some (.bool b), acc => (addElem acc (.bool b), false)
  | some .null, acc => (addElem acc .null, false)
  | some (.arr a), acc => updateElems a acc
  | some (.obj _), acc => (acc, true)

mutual

/-- `extract_recursive(data)` of `get_schema_types`
(`seo_auditor/utils.py` lines 16–28) threading the shared `types_found` set:
a dict first contributes its `@type` value and is then walked through all of
its values in document order (including the `@type` value itself); a list is
walked elementwise; scalars contribute nothing.  The boolean is the raised
`TypeError`: once `set.add`/`set.update` raises, the rest of the walk is
abandoned (the exception unwinds to the per-block `except`), but everything
added before the raise stays in the shared set. -/
def typesOfAcc : Json → List SetElem → List SetElem × Bool
  | .obj o, acc =>
    let r := typeValAdd (objLookup o "@type") acc
    if r.2 then r else typesOfObjAcc o r.1
  | .arr a, acc => typesOfArrAcc a acc
  | .null, acc => (acc, false)
  | .bool _, acc => (acc, false)
  | .num _, acc => (acc, false)
  | .str _, acc => (acc, false)

/-- Elementwise walk of a JSON array, stopping at the first raise. -/
def typesOfArrAcc : JsonArr → List SetElem → List SetElem × Bool
  | .nil, acc => (acc, false)
  | .cons j t, acc =>
    let r := typesOfAcc j acc
    if r.2 then r else typesOfArrAcc t r.1

/-- Walk of all values of a JSON object (`for key, value in data.items()`),
stopping at the first raise. -/
def typesOfObjAcc : JsonObj → List SetElem → List SetElem × Bool
  | .nil, acc => (acc, false)
  | .cons _ v t, acc =>
    let r := typesOfAcc v acc
    if r.2 then r else typesOfObjAcc t r.1

end

/-- The `types_found` set after the loop over the page's
`application/ld+json` script blocks (`utils.py` lines 30–36).  An entry
`none` models a block whose `script.string` is empty or whose `json.loads`
raised; a `TypeError` raised mid-walk is caught by the same bare
`except: continue` — either way the loop keeps the shared set as the walk
left it and moves to the next block. -/
def schemaTypesRun (scripts : List (Option Json)) : List SetElem :=
  scripts.foldl
    (fun acc b =>
      match b with
      | none => acc
      | some j => (typesOfAcc j acc).1)
    []

/-- The string carried by a set element, when it is one. -/
def setElemStr : SetElem → Option String
  | .str s => some s
  | .num _ => none
  | .bool _ => none
  | .null => none

/-- The result of `get_schema_types`: `", ".join(sorted(list(types_found)))`
(`utils.py` line 37).  This final line is outside every `try`: when the set
holds any non-string element, `sorted` or `join` raises `TypeError`, the
exception propagates out of `get_schema_types` (`none` here) — and on into
`analyze_page`, whose call at `analyzer.py` line 101 is not guarded. -/
def schemaTypesResult (scripts : List (Option Json)) : Option String :=
  let set := schemaTypesRun scripts
  let strs := set.filterMap setElemStr
  if strs.length = set.length then
    some (String.intercalate ", " (List.insertionSort strLexLe strs))
  else none

/-- Total wrapper used by the `analyzePage` embedding below: on the raising
path (`schemaTypesResult = none`) the source produces no record at all —
the `TypeError` escapes `analyze_page` — and none of the record-level
theorems below concern that path; the wrapper maps it to the empty string so
the record stays expressible. -/
def schemaTypesString (scripts : List (Option Json)) : String :=
  (schemaTypesResult scripts).getD ""

/-- Membership of a JSON value in a JSON array spine. -/
inductive AMem : Json → JsonArr → Prop
  | head (j : Json) (t : JsonArr) : AMem j (.cons j t)
  | tail {j : Json} {t : JsonArr} (k : Json) : AMem j t → AMem j (.cons k t)

mutual

/-- Specification-side reachability, following the spec's words: an `@type`
value is collected when it is reachable by recursively walking the JSON
payload, where both lists and nested objects contribute types.  `JReach j s`
holds when the string `s` is an `@type` value of the value `j` itself or of
any value nested inside `j`. -/
inductive JReach : Json → String → Prop
  | typeStr {o : JsonObj} {s : String} :
      objLookup o "@type" = some (.str s) → JReach (.obj o) s
  | typeArr {o : JsonObj} {s : String} {a : JsonArr} :
      objLookup o "@type" = some (.arr a) → AMem (.str s) a → JReach (.obj o) s
  | objStep {o : JsonObj} {s : String} : OReach o s → JReach (.obj o) s
  | arrStep {a : JsonArr} {s : String} : AReach a s → JReach (.arr a) s

/-- Reachability through some element of an array. -/
inductive AReach : JsonArr → String → Prop
  | head {j : Json} {s : String} (t : JsonArr) : JReach j s → AReach (.cons j t) s
  | tail {t : JsonArr} {s : String} (j : Json) : AReach t s → AReach (.cons j t) s

/-- Reachability through some value of an object. -/
inductive OReach : JsonObj → String → Prop
  | head {v : Json} {s : String} (k : String) (t : JsonObj) :
      JReach v s → OReach (.cons k v t) s
  | tail {t : JsonObj} {s : String} (k : String) (v : Json) :
      OReach t s → OReach (.cons k v t) s

end

/-- The strings an `@type` value contributes directly: the value is this very
string, or the value is a list with this string among its elements. -/
def TypeHit (v : Option Json) (s : String) : Prop :=
  v = some (.str s) ∨ ∃ a : JsonArr, v = some (.arr a) ∧ AMem (.str s) a

/-- Inversion of reachability at an object: a type string is reachable from a
dict iff its own `@type` value contributes it or it is reachable from one of
the dict's values. -/
theorem jreach_obj_iff (o : JsonObj) (s : String) :
    JReach (.obj o) s ↔ TypeHit (objLookup o "@type") s ∨ OReach o s := by
  constructor
  · intro h
    cases h with
    | typeStr hl => exact Or.inl (Or.inl hl)
    | typeArr hl hm => exact Or.inl (Or.inr ⟨_, hl, hm⟩)
    | objStep h => exact Or.inr h
  · rintro ((hl | ⟨a, hl, hm⟩) | h)
    · exact JReach.typeStr hl
    · exact JReach.typeArr hl hm
    · exact JReach.objStep h

/-- Every element of the array is a string literal. -/
def allStrings : JsonArr → Bool
  | .nil => true
  | .cons (.str _) t => allStrings t
  | .cons .null _ => false
  | .cons (.bool _) _ => false
  | .cons (.num _) _ => false
  | .cons (.arr _) _ => false
  | .cons (.obj _) _ => false

/-- Well-typed `@type` value: a string, a list of strings, or absent.  These
are the values `set.add`/`set.update` accept without raising and the final
join can render. -/
def typeValOk : Option Json → Bool
  | none => true
  | some (.str _) => true
  | some (.arr a) => allStrings a
  | some .null => false
  | some (.bool _) => false
  | some (.num _) => false
  | some (.obj _) => false

mutual

/-- Well-typed payload: every `@type` value of every nested object is a
string or a list of strings.  On such payloads `extract_recursive` completes
without raising and the final join succeeds. -/
def wellTypedJ : Json → Bool
  | .obj o => typeValOk (objLookup o "@type") && wellTypedO o
  | .arr a => wellTypedA a
  | .null => true
  | .bool _ => true
  | .num _ => true
  | .str _ => true

/-- Well-typedness along an array spine. -/
def wellTypedA : JsonArr → Bool
  | .nil => true
  | .cons j t => wellTypedJ j && wellTypedA t

/-- Well-typedness along an object spine. -/
def wellTypedO : JsonObj → Bool
  | .nil => true
  | .cons _ v t => wellTypedJ v && wellTypedO t

end

/-- On an all-strings list, `set.update` does not raise and adds exactly the
element strings. -/
theorem updateElems_ok :
    ∀ (a : JsonArr) (acc : List SetElem), allStrings a = true →
      (updateElems a acc).2 = false ∧
      ∀ s : String,
        (SetElem.str s ∈ (updateElems a acc).1 ↔
          SetElem.str s ∈ acc ∨ AMem (.str s) a)
  | .nil, acc, _ => by
    refine ⟨rfl, fun s => ?_⟩
    constructor
    · exact Or.inl
    · rintro (h | h)
      · exact h
      · cases h
  | .cons (.str x) t, acc, h => by
    have ht : allStrings t = true := h
    have ih := updateElems_ok t (addElem acc (.str x)) ht
    refine ⟨ih.1, fun s => ?_⟩
    rw [show updateElems (.cons (.str x) t) acc = updateElems t (addElem acc (.str x)) from rfl,
      ih.2 s, mem_addElem]
    constructor
    · rintro ((h2 | h2) | h2)
      · exact Or.inl h2
      · injection h2 with h2
        subst h2
        exact Or.inr (AMem.head _ _)
      · exact Or.inr (AMem.tail _ h2)
    · rintro (h2 | h2)
      · exact Or.inl (Or.inl h2)
      · cases h2 with
        | head => exact Or.inl (Or.inr rfl)
        | tail _ h2 => exact Or.inr h2
  | .cons .null _, _, h => by exact absurd h (by simp [allStrings])
  | .cons (.bool _) _, _, h => by exact absurd h (by simp [allStrings])
  | .cons (.num _) _, _, h => by exact absurd h (by simp [allStrings])
  | .cons (.arr _) _, _, h => by exact absurd h (by simp [allStrings])
  | .cons (.obj _) _, _, h => by exact absurd h (by simp [allStrings])

/-- On a well-typed `@type` value, the contribution step does not raise and
adds exactly the `TypeHit` strings. -/
theorem typeValAdd_ok :
    ∀ (v : Option Json) (acc : List SetElem), typeValOk v = true →
      (typeValAdd v acc).2 = false ∧
      ∀ s : String,
        (SetElem.str s ∈ (typeValAdd v acc).1 ↔ SetElem.str s ∈ acc ∨ TypeHit v s)
  | none, acc, _ => by
    refine ⟨rfl, fun s => ?_⟩
    simp [typeValAdd, TypeHit]
  | some (.str x), acc, _ => by
    refine ⟨rfl, fun s => ?_⟩
    rw [show (typeValAdd (some (.str x)) acc).1 = addElem acc (.str x) from rfl,
      mem_addElem]
    simp only [TypeHit, Option.some.injEq, Json.str.injEq]
    constructor
    · rintro (h | h)
      · exact Or.inl h
      · injection h with h
        subst h
        exact Or.inr (Or.inl rfl)
    · rintro (h | (rfl | ⟨a, ha, _⟩))
      · exact Or.inl h
      · exact Or.inr rfl
      · exact absurd ha (by simp)
  | some (.arr a), acc, h => by
    have ha : allStrings a = true := h
    have h2 := updateElems_ok a acc ha
    refine ⟨h2.1, fun s => ?_⟩
    rw [show typeValAdd (some (.arr a)) acc = updateElems a acc from rfl, h2.2 s]
    simp only [TypeHit, Option.some.injEq, Json.arr.injEq]
    constructor
    · rintro (h3 | h3)
      · exact Or.inl h3
      · exact Or.inr (Or.inr ⟨a, rfl, h3⟩)
    · rintro (h3 | (h3 | ⟨a2, rfl, hm⟩))
      · exact Or.inl h3
      · exact absurd h3 (by simp)
      · exact Or.inr hm
  | some .null, _, h => by exact absurd h (by simp [typeValOk])
  | some (.bool _), _, h => by exact absurd h (by simp [typeValOk])
  | some (.num _), _, h => by exact absurd h (by simp [typeValOk])
  | some (.obj _), _, h => by exact absurd h (by simp [typeValOk])

mutual

/-- Code/spec correspondence for one well-typed JSON value: the walk does not
raise and, after it, the shared set holds a string iff it was already there
or the string is a reachable `@type` value. -/
theorem typesOfAcc_ok :
    ∀ (j : Json) (acc : List SetElem), wellTypedJ j = true →
      (typesOfAcc j acc).2 = false ∧
      ∀ s : String,
        (SetElem.str s ∈ (typesOfAcc j acc).1 ↔ SetElem.str s ∈ acc ∨ JReach j s)
  | .null, acc, _ => by
    refine ⟨rfl, fun s => ?_⟩
    show SetElem.str s ∈ acc ↔ _
    constructor
    · exact Or.inl
    · rintro (h | h)
      · exact h
      · cases h
  | .bool b, acc, _ => by
    refine ⟨rfl, fun s => ?_⟩
    show SetElem.str s ∈ acc ↔ _
    constructor
    · exact Or.inl
    · rintro (h | h)
      · exact h
      · cases h
  | .num n, acc, _ => by
    refine ⟨rfl, fun s => ?_⟩
    show SetElem.str s ∈ acc ↔ _
    constructor
    · exact Or.inl
    · rintro (h | h)
      · exact h
      · cases h
  | .str x, acc, _ => by
    refine ⟨rfl, fun s => ?_⟩
    show SetElem.str s ∈ acc ↔ _
    constructor
    · exact Or.inl
    · rintro (h | h)
      · exact h
      · cases h
  | .arr a, acc, hwt => by
    have h := typesOfArrAcc_ok a acc hwt
    refine ⟨h.1, fun s => ?_⟩
    rw [show typesOfAcc (.arr a) acc = typesOfArrAcc a acc from rfl, h.2 s]
    constructor
    · rintro (h2 | h2)
      · exact Or.inl h2
      · exact Or.inr (JReach.arrStep h2)
    · rintro (h2 | h2)
      · exact Or.inl h2
      · cases h2 with
        | arrStep h2 => exact Or.inr h2
  | .obj o, acc, hwt => by
    have hok : typeValOk (objLookup o "@type") = true ∧ wellTypedO o = true := by
      simpa [wellTypedJ, Bool.and_eq_true] using hwt
    have h1 := typeValAdd_ok (objLookup o "@type") acc hok.1
    have h2 := typesOfObjAcc_ok o (typeValAdd (objLookup o "@type") acc).1 hok.2
    have hred : typesOfAcc (.obj o) acc =
        typesOfObjAcc o (typeValAdd (objLookup o "@type") acc).1 := by
      show (if (typeValAdd (objLookup o "@type") acc).2 = true
          then typeValAdd (objLookup o "@type") acc
          else typesOfObjAcc o (typeValAdd (objLookup o "@type") acc).1) = _
      rw [h1.1]
      simp
    rw [hred]
    refine ⟨h2.1, fun s => ?_⟩
    rw [h2.2 s, h1.2 s, jreach_obj_iff, or_assoc]

/-- Code/spec correspondence along a well-typed array spine. -/
theorem typesOfArrAcc_ok :
    ∀ (a : JsonArr) (acc : List SetElem), wellTypedA a = true →
      (typesOfArrAcc a acc).2 = false ∧
      ∀ s : String,
        (SetElem.str s ∈ (typesOfArrAcc a acc).1 ↔ SetElem.str s ∈ acc ∨ AReach a s)
  | .nil, acc, _ => by
    refine ⟨rfl, fun s => ?_⟩
    show SetElem.str s ∈ acc ↔ _
    constructor
    · exact Or.inl
    · rintro (h | h)
      · exact h
      · cases h
  | .cons j t, acc, hwt => by
    have hok : wellTypedJ j = true ∧ wellTypedA t = true := by
      simpa [wellTypedA, Bool.and_eq_true] using hwt
    have h1 := typesOfAcc_ok j acc hok.1
    have h2 := typesOfArrAcc_ok t (typesOfAcc j acc).1 hok.2
    have hred : typesOfArrAcc (.cons j t) acc =
        typesOfArrAcc t (typesOfAcc j acc).1 := by
      show (if (typesOfAcc j acc).2 = true
          then typesOfAcc j acc
          else typesOfArrAcc t (typesOfAcc j acc).1) = _
      rw [h1.1]
      simp
    rw [hred]
    refine ⟨h2.1, fun s => ?_⟩
    rw [h2.2 s, h1.2 s]
    constructor
    · rintro ((h3 | h3) | h3)
      · exact Or.inl h3
      · exact Or.inr (AReach.head _ h3)
      · exact Or.inr (AReach.tail _ h3)
    · rintro (h3 | h3)
      · exact Or.inl (Or.inl h3)
      · cases h3 with
        | head _ h3 => exact Or.inl (Or.inr h3)
        | tail _ h3 => exact Or.inr h3

/-- Code/spec correspondence along a well-typed object spine. -/
theorem typesOfObjAcc_ok :
    ∀ (o : JsonObj) (acc : List SetElem), wellTypedO o = true →
      (typesOfObjAcc o acc).2 = false ∧
      ∀ s : String,
        (SetElem.str s ∈ (typesOfObjAcc o acc).1 ↔ SetElem.str s ∈ acc ∨ OReach o s)
  | .nil, acc, _ => by
    refine ⟨rfl, fun s => ?_⟩
    show SetElem.str s ∈ acc ↔ _
    constructor
    · exact Or.inl
    · rintro (h | h)
      · exact h
      · cases h
  | .cons k v t, acc, hwt => by
    have hok : wellTypedJ v = true ∧ wellTypedO t = true := by
      simpa [wellTypedO, Bool.and_eq_true] using hwt
    have h1 := typesOfAcc_ok v acc hok.1
    have h2 := typesOfObjAcc_ok t (typesOfAcc v acc).1 hok.2
    have hred : typesOfObjAcc (.cons k v t) acc =
        typesOfObjAcc t (typesOfAcc v acc).1 := by
      show (if (typesOfAcc v acc).2 = true
          then typesOfAcc v acc
          else typesOfObjAcc t (typesOfAcc v acc).1) = _
      rw [h1.1]
      simp
    rw [hred]
    refine ⟨h2.1, fun s => ?_⟩
    rw [h2.2 s, h1.2 s]
    constructor
    · rintro ((h3 | h3) | h3)
      · exact Or.inl h3
      · exact Or.inr (OReach.head _ _ h3)
      · exact Or.inr (OReach.tail _ _ h3)
    · rintro (h3 | h3)
      · exact Or.inl (Or.inl h3)
      · cases h3 with
        | head _ _ h3 => exact Or.inl (Or.inr h3)
        | tail _ _ h3 => exact Or.inr h3

end

/-- Membership in the script fold, when every successfully parsed block is
well-typed: a type string is collected iff it was in the accumulator or is
extracted from some parsed block. -/
theorem schemaTypesRun_mem :
    ∀ (scripts : List (Option Json)) (acc : List SetElem) (s : String),
      (∀ j : Json, some j ∈ scripts → wellTypedJ j = true) →
      (SetElem.str s ∈ scripts.foldl
          (fun acc b =>
            match b with
            | none => acc
            | some j => (typesOfAcc j acc).1) acc ↔
        SetElem.str s ∈ acc ∨ ∃ j, some j ∈ scripts ∧ JReach j s) := by
  intro scripts
  induction scripts with
  | nil => intro acc s _; simp
  | cons x xs ih =>
    intro acc s hwt
    have hwtt : ∀ j : Json, some j ∈ xs → wellTypedJ j = true :=
      fun j hj => hwt j (List.mem_cons_of_mem _ hj)
    cases x with
    | none =>
      rw [List.foldl_cons]
      show (SetElem.str s ∈ xs.foldl _ acc ↔ _)
      rw [ih acc s hwtt]
      simp [List.mem_cons]
    | some j0 =>
      have hj0 : wellTypedJ j0 = true := hwt j0 (List.mem_cons_self _ _)
      rw [List.foldl_cons]
      show (SetElem.str s ∈ xs.foldl _ (typesOfAcc j0 acc).1 ↔ _)
      rw [ih _ s hwtt, (typesOfAcc_ok j0 acc hj0).2 s]
      simp only [List.mem_cons]
      constructor
      · rintro ((h | h) | h)
        · exact Or.inl h
        · exact Or.inr ⟨j0, Or.inl rfl, h⟩
        · obtain ⟨j, hj, hs⟩ := h
          exact Or.inr ⟨j, Or.inr hj, hs⟩
      · rintro (h | ⟨j, (hj | hj), hs⟩)
        · exact Or.inl (Or.inl h)
        · injection hj with hj0
          subst hj0
          exact Or.inl (Or.inr hs)
        · exact Or.inr ⟨j, hj, hs⟩

/-- Claim C8 (amended): when every successfully parsed script block is
well-typed (each `@type` value a string or a list of strings — the values the
source's `set.add`/`set.update` accept and the final join can render),
structured-data type extraction collects exactly the `@type` values reachable
by recursively walking each block's payload — lists and nested objects both
contribute — and a malformed block (a `none` entry) is skipped without losing
the types extracted from the other blocks of the same page. -/
theorem schema_types_welltyped_complete (scripts : List (Option Json)) (s : String)
    (hwt : ∀ j : Json, some j ∈ scripts → wellTypedJ j = true) :
    (SetElem.str s ∈ schemaTypesRun scripts ↔ ∃ j, some j ∈ scripts ∧ JReach j s) ∧
    (∀ pre post : List (Option Json),
      schemaTypesRun (pre ++ none :: post) = schemaTypesRun (pre ++ post)) := by
  constructor
  · rw [schemaTypesRun, schemaTypesRun_mem scripts [] s hwt]
    simp
  · intro pre post
    unfold schemaTypesRun
    rw [List.foldl_append, List.foldl_append, List.foldl_cons]

/-- A well-typed one-object payload with `@type` `"Org"`. -/
def jOrg : Json := .obj (.cons "@type" (.str "Org") .nil)

/-- Claim C8, witness: one good block followed by a malformed block. -/
theorem schema_types_welltyped_complete_witness :
    (SetElem.str "Org" ∈ schemaTypesRun [some jOrg, none] ↔
      ∃ j, some j ∈ [some jOrg, none] ∧ JReach j "Org") ∧
    (∀ pre post : List (Option Json),
      schemaTypesRun (pre ++ none :: post) = schemaTypesRun (pre ++ post)) :=
  schema_types_welltyped_complete [some jOrg, none] "Org" (by
    intro j hj
    rcases List.mem_cons.mp hj with h | h
    · injection h with h
      subst h
      decide
    · rcases List.mem_cons.mp h with h2 | h2
      · exact Option.noConfusion h2
      · exact absurd h2 (List.not_mem_nil _))

/-- A block whose payload is a list of two objects: the first carries an
unhashable dict `@type`, the second the string `@type` `"Org"`. -/
def jPoison : Json :=
  .arr (.cons (.obj (.cons "@type" (.obj .nil) .nil))
    (.cons (.obj (.cons "@type" (.str "Org") .nil)) .nil))

/-- Claim C8, counterexample: on this single script block the source's
`set.add` raises `TypeError` at the dict-valued `@type`, the per-block bare
`except` catches it, and the rest of the block's walk is lost — the reachable
`@type` value `"Org"` is never collected, refuting the unrestricted claim
that every reachable `@type` value is collected. -/
theorem schema_dict_type_loses_reachable :
    SetElem.str "Org" ∉ schemaTypesRun [some jPoison] ∧ JReach jPoison "Org" := by
  constructor
  · decide
  · exact JReach.arrStep
      (AReach.tail _ (AReach.head _ (JReach.typeStr rfl)))

/-- Model of Python `str.lower()`: lower-case each character.  (Written on the
character list so that it is kernel-computable; `String.toLower` maps the same
function over the same characters.) -/
def lowerStr (s : String) : String := ⟨s.data.map Char.toLower⟩

/-- Model of Python `str.strip()`: drop whitespace from both ends. -/
def trimStr (s : String) : String :=
  ⟨((s.data.dropWhile Char.isWhitespace).reverse.dropWhile Char.isWhitespace).reverse⟩

/-- Model of Python `str.startswith(pre)`. -/
def startsWithStr (s pre : String) : Bool := pre.data.isPrefixOf s.data

/-- The URL-related world functions `analyze_page` depends on: `urljoin(url, href)`,
`urlparse(...).netloc`, the HEAD-request brokenness oracle of
`check_link_status` (true on status ≥ 400 or any exception), and the
fragment-stripping `.split("#")[0]` used by `main.py`. -/
structure Net where
  urljoin : String → String → String
  netloc : String → String
  isBroken : String → Bool
  stripFrag : String → String

/-- The parse-level view of one fetched HTML page, abstracting the BeautifulSoup
queries `analyze_page` performs: `.string` of each `<title>` (None possible),
the first description meta's content attribute, the text of each `<h1>`, the
tag names of all `h1..h6` in document order, the canonical link's href, the
visible-text word count (`len(soup.get_text(" ", strip=True).split())`), the
`alt` attribute of each `<img>` (None when absent), the `href` of each anchor
carrying one, and the parsed JSON of each `application/ld+json` script block
(`none` for an empty or malformed block). -/
structure Page where
  titles : List (Option String)
  metaDescription : Option String
  h1Texts : List String
  headerNames : List String
  canonicalHref : Option String
  wordCount : Nat
  imgAlts : List (Option String)
  anchorHrefs : List String
  ldJsonScripts : List (Option Json)

/-- Outcome of `session.get(url, timeout=TIMEOUT)`: an exception with its
message, or a response with status, size in KB, final URL after redirects
(`r.url`), whether `"text/html"` occurs in the Content-Type header, elapsed
time, and the parsed page. -/
inductive PageFetch where
  | failure (msg : String)
  | response (status : Nat) (sizeKb : ℚ) (finalUrl : String)
      (contentTypeHtml : Bool) (elapsed : ℚ) (page : Page)

/-- The `result` dict of `analyze_page` in `seo_auditor/analyzer.py`
lines 41–71, one field per key. -/
structure PageResult where
  url : String
  status_code : Nat
  status_type : String
  https_ok : Bool
  page_size_kb : ℚ
  schema_types : String
  title : String
  title_len : Nat
  meta_description : String
  meta_description_len : Nat
  h1_text : String
  h1_count : Nat
  word_count : Nat
  canonical : String
  internal_links : Nat
  external_links : Nat
  broken_links : Nat
  load_time_s : ℚ
  multiple_title_tags : Bool
  h1_equals_title : Bool
  sequential_h1_error : Bool
  missing_alt_count : Nat
  issues_found : List String
deriving DecidableEq, Repr

/-- The initial `result` dict: every field at its zero-value default. -/
def emptyResult (url : String) : PageResult where
  url := url
  status_code := 0
  status_type := "Unknown"
  https_ok := false
  page_size_kb := 0
  schema_types := ""
  title := ""
  title_len := 0
  meta_description := ""
  meta_description_len := 0
  h1_text := ""
  h1_count := 0
  word_count := 0
  canonical := ""
  internal_links := 0
  external_links := 0
  broken_links := 0
  load_time_s := 0
  multiple_title_tags := false
  h1_equals_title := false
  sequential_h1_error := false
  missing_alt_count := 0
  issues_found := []

/-- Status classification of `analyzer.py` lines 86–89: note the bare `else`
maps everything outside 200–499 (including informational 1xx) to
"Server Error". -/
def statusTypeOf (s : Nat) : String :=
  if 200 ≤ s ∧ s < 300 then "Success"
  else if 300 ≤ s ∧ s < 400 then "Redirect"
  else if 400 ≤ s ∧ s < 500 then "Client Error"
  else "Server Error"

/-- The skip test of `analyzer.py` line 140:
`href.startswith(("javascript:", "mailto:", "tel:", "#"))`. -/
def skipHref (href : String) : Bool :=
  startsWithStr href "javascript:" || startsWithStr href "mailto:" ||
    startsWithStr href "tel:" || startsWithStr href "#"

/-- Specification-side notion of a navigable anchor href: not a javascript:,
mailto: or tel: scheme and not a same-page fragment-only link. -/
def navigableHref (href : String) : Bool :=
  !(startsWithStr href "javascript:" || startsWithStr href "mailto:" ||
      startsWithStr href "tel:" || startsWithStr href "#")

/-- A navigable href is exactly one the analyzer's loop does not skip. -/
theorem navigableHref_eq_not_skip (href : String) : navigableHref href = !(skipHref href) := rfl

/-- The anchor loop of `analyzer.py` lines 138–150, threading
`(internal_links, external_links, internal_urls_to_check)`: a non-skipped
href is resolved against the page URL and counted as internal (and added to
the check set) when its netloc equals the site's, else as external. -/
def linkScanAux (net : Net) (url domainNetloc : String) :
    List String → Nat × Nat × List String → Nat × Nat × List String
  | [], acc => acc
  | href :: rest, acc =>
    if skipHref href then linkScanAux net url domainNetloc rest acc
    else
      let full := net.urljoin url href
      if net.netloc full == domainNetloc then
        linkScanAux net url domainNetloc rest (acc.1 + 1, acc.2.1, addToSet acc.2.2 full)
      else
        linkScanAux net url domainNetloc rest (acc.1, acc.2.1 + 1, acc.2.2)

/-- `MAX_BROKEN_LINK_CHECKS = 20` from `seo_auditor/config.py` line 6. -/
def MAX_BROKEN_LINK_CHECKS : Nat := 20

/-- `MAX_INTERNAL_LINK_CHECK = 50` from `main.py` line 20. -/
def MAX_INTERNAL_LINK_CHECK : Nat := 50

/-- The link phase of `analyze_page`: scan the anchors, then test the first
`MAX_BROKEN_LINK_CHECKS` distinct internal targets
(`list(internal_urls_to_check)[:MAX_BROKEN_LINK_CHECKS]`). -/
def pageLinkScan (net : Net) (url domainNetloc : String) (page : Page) :
    Nat × Nat × List String :=
  linkScanAux net url domainNetloc page.anchorHrefs (0, 0, [])

/-- The broken count over the sampled internal links; the thread pool only
parallelises the HEAD requests, the count is order-independent. -/
def pageBrokenCount (net : Net) (url domainNetloc : String) (page : Page) : Nat :=
  ((pageLinkScan net url domainNetloc page).2.2.take MAX_BROKEN_LINK_CHECKS).countP
    net.isBroken

/-- The issue table of `analyzer.py` lines 168–178, in source order.  It has
no rule for HTTP error status, thin content, multiple title tags or heading
hierarchy. -/
def analyzerIssues (httpsOk : Bool) (pageSizeKb : ℚ) (schema : String)
    (titleLen h1Count : Nat) (h1EqTitle : Bool) (missingAlt broken : Nat) :
    List String :=
  (if httpsOk = false then ["Not HTTPS"] else []) ++
  (if 2000 < pageSizeKb then ["Large Page (>2MB)"] else []) ++
  (if schema = "" then ["No Schema"] else []) ++
  (if titleLen = 0 then ["Missing Title"]
    else if 60 < titleLen then ["Title > 60 chars"] else []) ++
  (if h1Count = 0 then ["Missing H1"]
    else if 1 < h1Count then ["Multiple H1s"] else []) ++
  (if h1EqTitle = true then ["Title == H1"] else []) ++
  (if 0 < missingAlt then [toString missingAlt ++ " Images missing Alt"] else []) ++
  (if 0 < broken then [toString broken ++ " Broken Links"] else [])

/-- The first title's text: `if titles and titles[0].string:` then
`titles[0].string.strip()` — an absent first title, a `None` `.string` or an
empty string all leave the default. -/
def firstTitleText (titles : List (Option String)) : String :=
  match titles with
  | [] => ""
  | t0 :: _ =>
    match t0 with
    | some s => if s = "" then "" else trimStr s
    | none => ""

/-- The HTML branch of `analyze_page` (`analyzer.py` lines 98–180). -/
def analyzeHtml (net : Net) (url domainNetloc : String) (status : Nat)
    (sizeKb : ℚ) (finalUrl : String) (elapsed : ℚ) (page : Page) : PageResult :=
  let schema := schemaTypesString page.ldJsonScripts
  let title := firstTitleText page.titles
  let metaDesc :=
    match page.metaDescription with
    | some c => if c = "" then "" else trimStr c
    | none => ""
  let h1Text := page.h1Texts.headD ""
  let h1Eq := title != "" && h1Text != "" && (lowerStr title == lowerStr h1Text)
  let seqErr :=
    match page.headerNames with
    | [] => false
    | h :: _ => lowerStr h != "h1"
  let canonical :=
    match page.canonicalHref with
    | some c => if c = "" then "" else c
    | none => ""
  let missingAlt := page.imgAlts.countP (fun a => a.getD "" == "")
  let scan := pageLinkScan net url domainNetloc page
  let broken := pageBrokenCount net url domainNetloc page
  { url := url
    status_code := status
    status_type := statusTypeOf status
    https_ok := startsWithStr finalUrl "https://"
    page_size_kb := sizeKb
    schema_types := schema
    title := title
    title_len := title.length
    meta_description := metaDesc
    meta_description_len := metaDesc.length
    h1_text := h1Text
    h1_count := page.h1Texts.length
    word_count := page.wordCount
    canonical := canonical
    internal_links := scan.1
    external_links := scan.2.1
    broken_links := broken
    load_time_s := elapsed
    multiple_title_tags := decide (1 < page.titles.length)
    h1_equals_title := h1Eq
    sequential_h1_error := seqErr
    missing_alt_count := missingAlt
    issues_found :=
      analyzerIssues (startsWithStr finalUrl "https://") sizeKb schema
        title.length page.h1Texts.length h1Eq missingAlt broken }

/-- The record returned when the response is not HTML or has status ≥ 400
(`analyzer.py` line 95): only the network-level fields are populated and the
issues list stays empty. -/
def baseRecord (url : String) (status : Nat) (sizeKb : ℚ) (finalUrl : String)
    (elapsed : ℚ) : PageResult :=
  { emptyResult url with
    load_time_s := elapsed
    status_code := status
    page_size_kb := sizeKb
    https_ok := startsWithStr finalUrl "https://"
    status_type := statusTypeOf status }

/-- Embedding of `analyze_page(url, domain_netloc)` from
`seo_auditor/analyzer.py` lines 40–180.  On a GET exception the handler
appends one `"Conn Error: ..."` issue and returns at once — it never assigns
`status_type`, which stays at the `"Unknown"` default. -/
def analyzePage (net : Net) (url domainNetloc : String) (f : PageFetch) :
    PageResult :=
  match f with
  | .failure msg => { emptyResult url with issues_found := ["Conn Error: " ++ msg] }
  | .response status sizeKb finalUrl ct elapsed page =>
    if ct = false ∨ 400 ≤ status then baseRecord url status sizeKb finalUrl elapsed
    else analyzeHtml net url domainNetloc status sizeKb finalUrl elapsed page

/-- The `result` dict of `analyze_page` in `main.py` lines 89–112, one field
per key (this standalone revision has no https/page-size/schema fields). -/
structure MainPageResult where
  url : String
  status_code : Nat
  status_type : String
  title : String
  title_len : Nat
  meta_description : String
  meta_description_len : Nat
  h1_text : String
  h1_count : Nat
  word_count : Nat
  canonical : String
  internal_links : Nat
  external_links : Nat
  broken_links : Nat
  load_time_s : ℚ
  multiple_title_tags : Bool
  h1_equals_title : Bool
  sequential_h1_error : Bool
  missing_alt_count : Nat
  issues_found : List String
deriving DecidableEq, Repr

/-- The initial `result` dict of `main.py`'s `analyze_page`. -/
def mainEmptyResult (url : String) : MainPageResult where
  url := url
  status_code := 0
  status_type := "Unknown"
  title := ""
  title_len := 0
  meta_description := ""
  meta_description_len := 0
  h1_text := ""
  h1_count := 0
  word_count := 0
  canonical := ""
  internal_links := 0
  external_links := 0
  broken_links := 0
  load_time_s := 0
  multiple_title_tags := false
  h1_equals_title := false
  sequential_h1_error := false
  missing_alt_count := 0
  issues_found := []

/-- Status classification of `main.py` lines 121–128: an `elif`-chain that
leaves statuses below 200 at "Unknown". -/
def mainStatusTypeOf (s : Nat) : String :=
  if 200 ≤ s ∧ s < 300 then "Success"
  else if 300 ≤ s ∧ s < 400 then "Redirect"
  else if 400 ≤ s ∧ s < 500 then "Client Error"
  else if 500 ≤ s then "Server Error"
  else "Unknown"

/-- The skip test of `main.py` line 193: no `"#"` entry, so fragment-only
links are not skipped there. -/
def mainSkipHref (href : String) : Bool :=
  startsWithStr href "javascript:" || startsWithStr href "mailto:" ||
    startsWithStr href "tel:"

/-- The anchor loop of `main.py` lines 191–202, threading
`(external_links, internal_links)`: the href is stripped, resolved, its
fragment removed; an internal target only goes into the set (`internal_links`
is the set's size at the end), an external one bumps the counter. -/
def mainLinkScanAux (net : Net) (url domainNetloc : String) :
    List String → Nat × List String → Nat × List String
  | [], acc => acc
  | href0 :: rest, acc =>
    let href := trimStr href0
    if mainSkipHref href then mainLinkScanAux net url domainNetloc rest acc
    else
      let absHref := net.stripFrag (net.urljoin url href)
      if net.netloc absHref == domainNetloc then
        mainLinkScanAux net url domainNetloc rest (acc.1, addToSet acc.2 absHref)
      else
        mainLinkScanAux net url domainNetloc rest (acc.1 + 1, acc.2)

/-- The issue table of `main.py` lines 218–239, in source order.  The
`Status {code}` rule fires only when `status_code ≥ 400`, which the early
return at line 136 makes unreachable. -/
def mainIssues (status : Nat) (multipleTitles : Bool) (titleLen h1Count : Nat)
    (seqErr h1Eq : Bool) (broken missingAlt wordCount : Nat) : List String :=
  (if 400 ≤ status then ["Status " ++ toString status] else []) ++
  (if multipleTitles = true then ["Multiple <title> tags"] else []) ++
  (if titleLen = 0 then ["Missing Title"]
    else if 60 < titleLen then ["Title too long"] else []) ++
  (if h1Count = 0 then ["Missing H1"]
    else if 1 < h1Count then ["Multiple H1s"] else []) ++
  (if seqErr = true then ["Hierarchy Error: H1 is not first heading"] else []) ++
  (if h1Eq = true then ["Title identical to H1"] else []) ++
  (if 0 < broken then [toString broken ++ " Broken Links"] else []) ++
  (if 0 < missingAlt then [toString missingAlt ++ " Images missing Alt"] else []) ++
  (if wordCount < 300 then ["Thin Content"] else [])

/-- The HTML branch of `main.py`'s `analyze_page` (lines 139–241). -/
def mainAnalyzeHtml (net : Net) (url domainNetloc : String) (status : Nat)
    (elapsed : ℚ) (page : Page) : MainPageResult :=
  let title := firstTitleText page.titles
  let metaDesc :=
    match page.metaDescription with
    | some c => if c = "" then "" else trimStr c
    | none => ""
  let h1Text := page.h1Texts.headD ""
  let h1Eq := title != "" && h1Text != "" && (lowerStr title == lowerStr h1Text)
  let seqErr :=
    match page.headerNames with
    | [] => false
    | h :: _ => lowerStr h != "h1"
  let canonical :=
    match page.canonicalHref with
    | some c => if c = "" then "" else trimStr c
    | none => ""
  let missingAlt := page.imgAlts.countP (fun a => a.getD "" == "")
  let scan := mainLinkScanAux net url domainNetloc page.anchorHrefs (0, [])
  let broken := (scan.2.take MAX_INTERNAL_LINK_CHECK).countP net.isBroken
  { url := url
    status_code := status
    status_type := mainStatusTypeOf status
    title := title
    title_len := title.length
    meta_description := metaDesc
    meta_description_len := metaDesc.length
    h1_text := h1Text
    h1_count := page.h1Texts.length
    word_count := page.wordCount
    canonical := canonical
    internal_links := scan.2.length
    external_links := scan.1
    broken_links := broken
    load_time_s := elapsed
    multiple_title_tags := decide (1 < page.titles.length)
    h1_equals_title := h1Eq
    sequential_h1_error := seqErr
    missing_alt_count := missingAlt
    issues_found :=
      mainIssues status (decide (1 < page.titles.length)) title.length
        page.h1Texts.length seqErr h1Eq broken missingAlt page.wordCount }

/-- Embedding of `analyze_page(url, domain_netloc)` from `main.py`
lines 88–241.  On a GET exception this revision does set
`status_type = "Connection Error"` before returning (lines 130–133). -/
def mainAnalyzePage (net : Net) (url domainNetloc : String) (f : PageFetch) :
    MainPageResult :=
  match f with
  | .failure msg =>
    { mainEmptyResult url with
      status_type := "Connection Error"
      issues_found := ["Connection failed: " ++ msg] }
  | .response status _ _ ct elapsed page =>
    if ct = false ∨ 400 ≤ status then
      { mainEmptyResult url with
        load_time_s := elapsed
        status_code := status
        status_type := mainStatusTypeOf status }
    else mainAnalyzeHtml net url domainNetloc status elapsed page

/-- A `set.add` grows the set by at most one element. -/
theorem length_addToSet (s : List String) (x : String) :
    (addToSet s x).length ≤ s.length + 1 := by
  unfold addToSet
  split
  · omega
  · simp

/-- The internal counter after the anchor loop: initial value plus the number
of navigable anchors whose resolved netloc equals the site's. -/
theorem linkScanAux_internal (net : Net) (url domain : String) :
    ∀ (l : List String) (i e : Nat) (s : List String),
      (linkScanAux net url domain l (i, e, s)).1 =
        i + l.countP
          (fun href => navigableHref href && (net.netloc (net.urljoin url href) == domain)) := by
  intro l
  induction l with
  | nil => intro i e s; simp [linkScanAux]
  | cons href rest ih =>
    intro i e s
    have hnav : navigableHref href = !(skipHref href) := rfl
    by_cases hskip : skipHref href = true
    · simp [linkScanAux, hskip, ih, List.countP_cons, hnav]
    · have hskip' : skipHref href = false := by
        revert hskip; cases skipHref href <;> simp
      by_cases hint : (net.netloc (net.urljoin url href) == domain) = true
      · simp [linkScanAux, hskip', hint, ih, List.countP_cons, hnav]
        omega
      · have hint' : (net.netloc (net.urljoin url href) == domain) = false := by
          revert hint; cases net.netloc (net.urljoin url href) == domain <;> simp
        simp [linkScanAux, hskip', hint', ih, List.countP_cons, hnav]

/-- The external counter after the anchor loop: initial value plus the number
of navigable anchors whose resolved netloc differs from the site's. -/
theorem linkScanAux_external (net : Net) (url domain : String) :
    ∀ (l : List String) (i e : Nat) (s : List String),
      (linkScanAux net url domain l (i, e, s)).2.1 =
        e + l.countP
          (fun href => navigableHref href && !(net.netloc (net.urljoin url href) == domain)) := by
  intro l
  induction l with
  | nil => intro i e s; simp [linkScanAux]
  | cons href rest ih =>
    intro i e s
    have hnav : navigableHref href = !(skipHref href) := rfl
    by_cases hskip : skipHref href = true
    · simp [linkScanAux, hskip, ih, List.countP_cons, hnav]
    · have hskip' : skipHref href = false := by
        revert hskip; cases skipHref href <;> simp
      by_cases hint : (net.netloc (net.urljoin url href) == domain) = true
      · simp [linkScanAux, hskip', hint, ih, List.countP_cons, hnav]
      · have hint' : (net.netloc (net.urljoin url href) == domain) = false := by
          revert hint; cases net.netloc (net.urljoin url href) == domain <;> simp
        simp [linkScanAux, hskip', hint', ih, List.countP_cons, hnav]
        omega

/-- The distinct-target set grows at most as fast as the internal counter. -/
theorem linkScanAux_setlen (net : Net) (url domain : String) :
    ∀ (l : List String) (i e : Nat) (s : List String),
      (linkScanAux net url domain l (i, e, s)).2.2.length + i ≤
        s.length + (linkScanAux net url domain l (i, e, s)).1 := by
  intro l
  induction l with
  | nil => intro i e s; simp [linkScanAux]
  | cons href rest ih =>
    intro i e s
    by_cases hskip : skipHref href = true
    · simp only [linkScanAux, if_pos hskip]
      exact ih i e s
    · have hskip' : skipHref href = false := by
        revert hskip; cases skipHref href <;> simp
      by_cases hint : (net.netloc (net.urljoin url href) == domain) = true
      · simp only [linkScanAux, hskip', Bool.false_eq_true, if_false, hint, if_true]
        have h1 := ih (i + 1) e (addToSet s (net.urljoin url href))
        have h2 := length_addToSet s (net.urljoin url href)
        omega
      · have hint' : (net.netloc (net.urljoin url href) == domain) = false := by
          revert hint; cases net.netloc (net.urljoin url href) == domain <;> simp
        simp only [linkScanAux, hskip', Bool.false_eq_true, if_false, hint', if_true]
        exact ih i (e + 1) s

/-- Splitting a count over a boolean refinement of the predicate. -/
theorem countP_split (l : List String) (p q : String → Bool) :
    l.countP p =
      l.countP (fun a => p a && q a) + l.countP (fun a => p a && !q a) := by
  induction l with
  | nil => simp
  | cons a t ih =>
    by_cases hp : p a = true <;> by_cases hq : q a = true <;>
      simp [List.countP_cons, hp, hq, ih] <;> omega

/-- Claim C5: for every analyzed page (any fetch outcome, any world),
`broken_links ≤ min(internal_links, MAX_BROKEN_LINK_CHECKS)` — brokenness is
tested only over at most the cap-many distinct internal link targets
(`list(internal_urls_to_check)[:MAX_BROKEN_LINK_CHECKS]`), a sample, never an
exhaustive count. -/
theorem broken_links_le_min_cap (net : Net) (url domain : String) (f : PageFetch) :
    (analyzePage net url domain f).broken_links ≤
      min (analyzePage net url domain f).internal_links MAX_BROKEN_LINK_CHECKS := by
  cases f with
  | failure msg =>
    show (0 : Nat) ≤ min 0 MAX_BROKEN_LINK_CHECKS
    simp
  | response status kb furl ct elapsed page =>
    by_cases hc : ct = false ∨ 400 ≤ status
    · simp only [analyzePage, if_pos hc]
      show (0 : Nat) ≤ min 0 MAX_BROKEN_LINK_CHECKS
      simp
    · simp only [analyzePage, if_neg hc]
      show pageBrokenCount net url domain page ≤
        min (pageLinkScan net url domain page).1 MAX_BROKEN_LINK_CHECKS
      have hset : (pageLinkScan net url domain page).2.2.length ≤
          (pageLinkScan net url domain page).1 := by
        have h := linkScanAux_setlen net url domain page.anchorHrefs 0 0 []
        simpa [pageLinkScan] using h
      have hb : pageBrokenCount net url domain page ≤
          min MAX_BROKEN_LINK_CHECKS (pageLinkScan net url domain page).2.2.length := by
        unfold pageBrokenCount
        have h1 := List.countP_le_length (p := net.isBroken)
          (l := (pageLinkScan net url domain page).2.2.take MAX_BROKEN_LINK_CHECKS)
        rw [List.length_take] at h1
        exact h1
      refine Nat.le_min.mpr ⟨?_, ?_⟩
      · exact hb.trans ((Nat.min_le_right _ _).trans hset)
      · exact hb.trans (Nat.min_le_left _ _)

/-- Claim C7: for every analyzed HTML page (content type HTML, status below
400), `internal_links` counts exactly the navigable anchors whose resolved
host equals the site host, `external_links` counts exactly the navigable
anchors whose resolved host differs, and their sum is at least (here: equal
to) the number of navigable anchors. -/
theorem link_partition_navigable (net : Net) (url domain : String)
    (status : Nat) (kb : ℚ) (furl : String) (elapsed : ℚ) (page : Page)
    (h : status < 400) :
    (analyzePage net url domain (.response status kb furl true elapsed page)).internal_links =
        page.anchorHrefs.countP
          (fun href => navigableHref href && (net.netloc (net.urljoin url href) == domain)) ∧
    (analyzePage net url domain (.response status kb furl true elapsed page)).external_links =
        page.anchorHrefs.countP
          (fun href => navigableHref href && !(net.netloc (net.urljoin url href) == domain)) ∧
    page.anchorHrefs.countP navigableHref ≤
      (analyzePage net url domain (.response status kb furl true elapsed page)).internal_links +
        (analyzePage net url domain (.response status kb furl true elapsed page)).external_links := by
  have hcond : ¬ ((true = false) ∨ 400 ≤ status) := by
    rintro (h1 | h2)
    · exact Bool.noConfusion h1
    · omega
  have hint : (analyzePage net url domain
      (.response status kb furl true elapsed page)).internal_links =
        page.anchorHrefs.countP
          (fun href => navigableHref href && (net.netloc (net.urljoin url href) == domain)) := by
    simp only [analyzePage, if_neg hcond]
    show (pageLinkScan net url domain page).1 = _
    have h := linkScanAux_internal net url domain page.anchorHrefs 0 0 []
    simpa [pageLinkScan] using h
  have hext : (analyzePage net url domain
      (.response status kb furl true elapsed page)).external_links =
        page.anchorHrefs.countP
          (fun href => navigableHref href && !(net.netloc (net.urljoin url href) == domain)) := by
    simp only [analyzePage, if_neg hcond]
    show (pageLinkScan net url domain page).2.1 = _
    have h := linkScanAux_external net url domain page.anchorHrefs 0 0 []
    simpa [pageLinkScan] using h
  refine ⟨hint, hext, ?_⟩
  rw [hint, hext,
    countP_split page.anchorHrefs navigableHref
      (fun href => net.netloc (net.urljoin url href) == domain)]

/-- A world with identity URL resolution for concrete witnesses: `urljoin`
returns the href, `netloc` and fragment stripping are the identity, every
HEAD check succeeds. -/
def net0 : Net where
  urljoin := fun _ href => href
  netloc := fun s => s
  isBroken := fun _ => false
  stripFrag := fun s => s

/-- A witness page with four anchors: an internal one (twice), a fragment-only
one and a mailto. -/
def pageLinksW : Page where
  titles := [some "T"]
  metaDescription := none
  h1Texts := ["H"]
  headerNames := ["h1"]
  canonicalHref := none
  wordCount := 400
  imgAlts := []
  anchorHrefs := ["site", "#frag", "mailto:a@b", "elsewhere", "site"]
  ldJsonScripts := []

/-- Claim C7, witness: on the concrete page the partition counts 2 internal
(`"site"` twice) and 1 external (`"elsewhere"`), covering all 3 navigable
anchors. -/
theorem link_partition_navigable_witness :
    (analyzePage net0 "https://site/x" "site"
        (.response 200 1 "https://site/x" true 0 pageLinksW)).internal_links =
      pageLinksW.anchorHrefs.countP
        (fun href => navigableHref href && (net0.netloc (net0.urljoin "https://site/x" href) == "site")) ∧
    (analyzePage net0 "https://site/x" "site"
        (.response 200 1 "https://site/x" true 0 pageLinksW)).external_links =
      pageLinksW.anchorHrefs.countP
        (fun href => navigableHref href && !(net0.netloc (net0.urljoin "https://site/x" href) == "site")) ∧
    pageLinksW.anchorHrefs.countP navigableHref ≤
      (analyzePage net0 "https://site/x" "site"
          (.response 200 1 "https://site/x" true 0 pageLinksW)).internal_links +
        (analyzePage net0 "https://site/x" "site"
            (.response 200 1 "https://site/x" true 0 pageLinksW)).external_links :=
  link_partition_navigable net0 "https://site/x" "site" 200 1 "https://site/x" 0
    pageLinksW (by decide)

/-- Claim C2: on a GET exception, `seo_auditor.analyzer.analyze_page` returns
immediately a record with exactly one issue noting the cause and every other
field at its zero-value default — but `status_type` stays `"Unknown"`
(`status_code` is 0), not `"Connection Error"`; `main.py`'s revision of
`analyze_page` is the one that sets `status_type = "Connection Error"`. -/
theorem analyze_conn_failure_behavior (net : Net) (url domain msg : String) :
    (analyzePage net url domain (.failure msg)).status_type = "Unknown" ∧
    (analyzePage net url domain (.failure msg)).status_code = 0 ∧
    (analyzePage net url domain (.failure msg)).issues_found = ["Conn Error: " ++ msg] ∧
    analyzePage net url domain (.failure msg) =
      { emptyResult url with issues_found := ["Conn Error: " ++ msg] } ∧
    (mainAnalyzePage net url domain (.failure msg)).status_type = "Connection Error" ∧
    (mainAnalyzePage net url domain (.failure msg)).issues_found =
      ["Connection failed: " ++ msg] :=
  ⟨rfl, rfl, rfl, rfl, rfl, rfl⟩

/-- An empty page for concrete evaluations. -/
def page0 : Page where
  titles := []
  metaDescription := none
  h1Texts := []
  headerNames := []
  canonicalHref := none
  wordCount := 0
  imgAlts := []
  anchorHrefs := []
  ldJsonScripts := []

/-- Claim C6: a 404 HTML response is recorded, not a crash — but the record's
issues list is empty: both `analyze_page` revisions return before the issue
derivation when status ≥ 400 (`analyzer.py` line 95, `main.py` line 136), so
no issue for the HTTP error status is ever attached (the `"Status {code}"`
rule of `main.py` line 218 is unreachable). -/
theorem http_error_no_issue :
    (analyzePage net0 "https://site/x" "site"
        (.response 404 1 "https://site/x" true 0 page0)).status_code = 404 ∧
    (analyzePage net0 "https://site/x" "site"
        (.response 404 1 "https://site/x" true 0 page0)).status_type = "Client Error" ∧
    (analyzePage net0 "https://site/x" "site"
        (.response 404 1 "https://site/x" true 0 page0)).issues_found = [] ∧
    (mainAnalyzePage net0 "https://site/x" "site"
        (.response 404 1 "https://site/x" true 0 page0)).status_code = 404 ∧
    (mainAnalyzePage net0 "https://site/x" "site"
        (.response 404 1 "https://site/x" true 0 page0)).status_type = "Client Error" ∧
    (mainAnalyzePage net0 "https://site/x" "site"
        (.response 404 1 "https://site/x" true 0 page0)).issues_found = [] := by
  decide

/-- A formatted broken-links issue can never read "Thin Content" (its suffix
alone is longer). -/
theorem broken_label_ne_thin (n : Nat) :
    toString n ++ " Broken Links" ≠ "Thin Content" := by
  intro h
  have hl := congrArg String.length h
  rw [String.length_append] at hl
  have h13 : (" Broken Links" : String).length = 13 := rfl
  have h12 : ("Thin Content" : String).length = 12 := rfl
  rw [h13, h12] at hl
  omega

/-- Symmetric orientation of `broken_label_ne_thin`. -/
theorem thin_ne_broken_label (n : Nat) :
    "Thin Content" ≠ toString n ++ " Broken Links" :=
  fun h => broken_label_ne_thin n h.symm

/-- A formatted missing-alt issue can never read "Thin Content". -/
theorem alt_label_ne_thin (n : Nat) :
    toString n ++ " Images missing Alt" ≠ "Thin Content" := by
  intro h
  have hl := congrArg String.length h
  rw [String.length_append] at hl
  have h19 : (" Images missing Alt" : String).length = 19 := rfl
  have h12 : ("Thin Content" : String).length = 12 := rfl
  rw [h19, h12] at hl
  omega

/-- Symmetric orientation of `alt_label_ne_thin`. -/
theorem thin_ne_alt_label (n : Nat) :
    "Thin Content" ≠ toString n ++ " Images missing Alt" :=
  fun h => alt_label_ne_thin n h.symm

/-- Membership in a conditional list. -/
theorem mem_ite_list {c : Prop} [Decidable c] (x : String) (l1 l2 : List String) :
    (x ∈ if c then l1 else l2) ↔ (c ∧ x ∈ l1) ∨ (¬ c ∧ x ∈ l2) := by
  split <;> simp_all

/-- In `main.py`'s issue table, "Thin Content" appears exactly when the word
count is below 300 (for the reachable case status < 400). -/
theorem thin_mem_mainIssues (status : Nat) (mt : Bool) (tl h1c : Nat)
    (seq h1e : Bool) (broken alt wc : Nat) (h : status < 400) :
    ("Thin Content" ∈ mainIssues status mt tl h1c seq h1e broken alt wc ↔ wc < 300) := by
  have h400 : ¬ 400 ≤ status := by omega
  simp [mainIssues, mem_ite_list, List.mem_append, h400,
    thin_ne_broken_label, thin_ne_alt_label]

/-- Claim C9 (amended): for every successfully parsed HTML page, `main.py`'s
`analyze_page` attaches the "Thin Content" issue iff the visible-text word
count is below 300; the `seo_auditor.analyzer` revision has no such rule at
all (see the counterexample). -/
theorem main_thin_content_iff (net : Net) (url domain : String) (status : Nat)
    (kb : ℚ) (furl : String) (elapsed : ℚ) (page : Page) (h : status < 400) :
    ("Thin Content" ∈ (mainAnalyzePage net url domain
        (.response status kb furl true elapsed page)).issues_found ↔
      page.wordCount < 300) := by
  have hcond : ¬ ((true = false) ∨ 400 ≤ status) := by
    rintro (h1 | h2)
    · exact Bool.noConfusion h1
    · omega
  simp only [mainAnalyzePage, if_neg hcond]
  show ("Thin Content" ∈ mainIssues status (decide (1 < page.titles.length))
      (firstTitleText page.titles).length page.h1Texts.length _ _ _ _ page.wordCount ↔
    page.wordCount < 300)
  exact thin_mem_mainIssues _ _ _ _ _ _ _ _ _ h

/-- A thin, successfully parsed page: five visible words. -/
def pageThin : Page where
  titles := [some "A Title"]
  metaDescription := some "desc"
  h1Texts := ["A Heading"]
  headerNames := ["h1"]
  canonicalHref := none
  wordCount := 5
  imgAlts := []
  anchorHrefs := []
  ldJsonScripts := []

/-- Claim C9, counterexample: the `seo_auditor.analyzer` revision of
`analyze_page` parses this page (status 200, HTML), records word_count 5 <
300, yet its issues list contains no ThinContent issue — its issue table
(`analyzer.py` lines 168–178) has no thin-content rule. -/
theorem analyzer_thin_content_missing :
    (analyzePage net0 "https://site/x" "site"
        (.response 200 1 "https://site/x" true 0 pageThin)).word_count = 5 ∧
    (analyzePage net0 "https://site/x" "site"
        (.response 200 1 "https://site/x" true 0 pageThin)).word_count < 300 ∧
    "Thin Content" ∉ (analyzePage net0 "https://site/x" "site"
        (.response 200 1 "https://site/x" true 0 pageThin)).issues_found := by
  decide

/-- Claim C9, witness: `main.py`'s `analyze_page` on the same thin page does
attach "Thin Content". -/
theorem main_thin_content_iff_witness :
    ("Thin Content" ∈ (mainAnalyzePage net0 "https://site/x" "site"
        (.response 200 1 "https://site/x" true 0 pageThin)).issues_found ↔
      pageThin.wordCount < 300) :=
  main_thin_content_iff net0 "https://site/x" "site" 200 1 "https://site/x" 0
    pageThin (by decide)

/-- A page with the same internal target linked by two anchors. -/
def pageDup : Page where
  titles := [some "T"]
  metaDescription := none
  h1Texts := ["H"]
  headerNames := ["h1"]
  canonicalHref := none
  wordCount := 400
  imgAlts := []
  anchorHrefs := ["site", "site"]
  ldJsonScripts := []

/-- Claim C7, counterexample: in `main.py`'s revision of `analyze_page`
(lines 188–213) `internal_links` is the size of the deduplicated target set
(`len(internal_links)`), so with two navigable anchors pointing at the same
internal target the sum `internal_links + external_links` is 1 + 0 = 1, below
the navigable-anchor count 2 — refuting the claimed bound for that cited
revision. -/
theorem main_link_partition_counterexample :
    (mainAnalyzePage net0 "https://site/x" "site"
        (.response 200 1 "https://site/x" true 0 pageDup)).internal_links +
      (mainAnalyzePage net0 "https://site/x" "site"
        (.response 200 1 "https://site/x" true 0 pageDup)).external_links <
    pageDup.anchorHrefs.countP navigableHref := by
  decide
